import Mathlib

/-
Verification of the Cryptobottle Smart Contract Analyzer.

This file gives a shallow embedding of the analyzer logic found in
src/smart-contract-analyzer.js, src/save-utils.js and the unnamed source
files (the analyze_hack.js driver and the checkpointing variant of the
analyzer class), and proves the behavioural properties stated in the
design document about it.

Modelling conventions:
  - JavaScript strings are Lean `String`; `s.slice(0, 10)` is `s.take 10`,
    `s.slice(10)` is `s.drop 10`, `s.slice(-40)` is `jsSliceNeg40 s`.
  - External collaborators (the web3 RPC client, the block-explorer HTTP
    API, `web3.utils.isAddress`, the ABI parameter decoder, date
    formatting, and the keccak-derived capitalisation bits used by
    `toChecksumAddress`) are fields of an `Env` record; the analyzer code
    itself is embedded as pure functions over that record.
  - A fallible RPC read is `Except AnalyzerError _`; a JavaScript
    function that may throw and whose caller catches is matched on.
  - The mutable `this.report` / `this.processedContracts` state is made
    explicit: each embedded method takes and returns the state it
    mutates.
-/

/-- JavaScript `s.slice(-40)`: the last 40 characters of `s`, or all of
`s` when it is shorter than 40 characters. -/
def jsSliceNeg40 (s : String) : String :=
  String.mk (s.toList.drop (s.toList.length - 40))

/-- The 20-byte zero address as a 42-character hex string, the literal
`'0x0000000000000000000000000000000000000000'` used by the source. -/
def zeroAddressHex : String := "0x0000000000000000000000000000000000000000"

/-- A 32-byte storage word that is all zero bytes, as returned by
`eth_getStorageAt` for an empty slot (66 characters: `0x` plus 64 hex
zeros). -/
def zeroWord : String := "0x" ++ String.mk (List.replicate 64 '0')

/-- Selector constant `FUNCTION_SIGNATURES.UPGRADE_TO` from the source. -/
def UPGRADE_TO : String := "0x3659cfe6"

/-- Selector constant `FUNCTION_SIGNATURES.UPGRADE_TO_AND_CALL`. -/
def UPGRADE_TO_AND_CALL : String := "0x4f1ef286"

/-- Selector constant `FUNCTION_SIGNATURES.CHANGE_ADMIN`. -/
def CHANGE_ADMIN : String := "0x8f283970"

/-- Selector constant `FUNCTION_SIGNATURES.INITIALIZE` (identifier
renamed; the string key below keeps the source spelling). -/
def initializeSelector : String := "0x8129fc1c"

/-- The `FUNCTION_SIGNATURES` object of the analyzer class, as the
insertion-ordered list of (name, selector) entries that
`Object.entries` yields. -/
def FUNCTION_SIGNATURES : List (String × String) :=
  [("UPGRADE_TO", UPGRADE_TO),
   ("UPGRADE_TO_AND_CALL", UPGRADE_TO_AND_CALL),
   ("CHANGE_ADMIN", CHANGE_ADMIN),
   ("INITIALIZE", initializeSelector)]

/-- Storage slot constant `STORAGE_SLOTS.IMPLEMENTATION`. -/
def IMPLEMENTATION_SLOT : String :=
  "0x360894a13ba1a3210667c828492db98dca3e2076cc3735a920a3ca505d382bbc"

/-- Storage slot constant `STORAGE_SLOTS.ADMIN`. -/
def ADMIN_SLOT : String :=
  "0xb53127684a568b3173ae13b9f8a6016e243e63b6e8ee1178d6a717850b5d6103"

/-- One entry of a per-function parameter ABI, `{name, type}`. -/
structure AbiParam where
  name : String
  type : String
deriving DecidableEq, Repr

/-- Embeds `getAbiByFunctionName` (src/smart-contract-analyzer.js lines
545-556): the static name-to-ABI table; `none` models the JavaScript
`null` returned for an unknown name. -/
def getAbiByFunctionName (functionName : String) : Option (List AbiParam) :=
  if functionName = "UPGRADE_TO" then
    some [⟨"implementation", "address"⟩]
  else if functionName = "UPGRADE_TO_AND_CALL" then
    some [⟨"implementation", "address"⟩, ⟨"data", "bytes"⟩]
  else if functionName = "CHANGE_ADMIN" then
    some [⟨"newAdmin", "address"⟩]
  else if functionName = "INITIALIZE" then
    some []
  else
    none

/-- Decoded ABI parameters, modelled as an association list from
parameter name to decoded value rendered as a string. -/
def DecodedParams : Type := List (String × String)

instance : DecidableEq DecodedParams := by
  unfold DecodedParams
  infer_instance

/-- Result of `decodeTransactionInput`: `{method, params}`; the empty
association list models the empty object `{}`. -/
structure DecodedInput where
  method : String
  params : DecodedParams
deriving DecidableEq

/-- A transaction record as returned by the block-explorer `txlist`
endpoint, restricted to the fields the analyzer reads. The JavaScript
fields `from` and `to` are renamed `fromAddr` and `toAddr` because
`from` is a Lean keyword; `input` is an `Option` because the field may
be absent, and `timeStamp` is the numeric value of the decimal string
the explorer returns. -/
structure Tx where
  hash : String
  fromAddr : String
  toAddr : String
  value : String
  input : Option String
  timeStamp : Nat
deriving DecidableEq

/-- Result of `analyzeSingleTransaction`. The source builds the object
without a `decodedInput` key and only assigns that key inside the
long-input branch, so the field is an `Option` whose `none` means the
key is absent from the result object. -/
structure Analysis where
  hash : String
  fromAddr : String
  toAddr : String
  value : String
  input : Option String
  timestamp : String
  suspicious : Bool
  reason : List String
  decodedInput : Option DecodedInput
deriving DecidableEq

/-- Response of the block-explorer `txlist` endpoint: the `status`
string and the `result` list. -/
structure ExplorerResp where
  status : String
  result : List Tx

/-- Error taxonomy of the design document: storage-read failures and
address-validation failures. -/
inductive AnalyzerError where
  | storageRead (msg : String)
  | validation (msg : String)
deriving DecidableEq

/-- The external collaborators consumed by the analyzer, injected as
one record: `isAddr` is `web3.utils.isAddress`; `caseMap` gives the
keccak-derived capitalisation bit that `web3.utils.toChecksumAddress`
uses for position `i` of a given lower-cased hex string; `decodeParams`
is `web3.eth.abi.decodeParameters` with `none` modelling a thrown
decode error; `toIso` formats a millisecond timestamp; `storageAt` is
`web3.eth.getStorageAt` for (address, slot, block); `txlist` is the
block-explorer transaction-list call; `getCode` is `web3.eth.getCode`;
`blockNumber` is the value `web3.eth.getBlockNumber` returns at sampler
start. -/
structure Env where
  isAddr : String → Bool
  caseMap : String → Nat → Bool
  decodeParams : List AbiParam → String → Option DecodedParams
  toIso : Nat → String
  storageAt : String → String → Nat → Except AnalyzerError String
  txlist : String → ExplorerResp
  getCode : String → String
  blockNumber : Nat

/-- Embeds `isValidAddress` (src/smart-contract-analyzer.js lines
502-504): well-formed per `web3.utils.isAddress` and not the zero
address. -/
def isValidAddress (env : Env) (address : String) : Bool :=
  env.isAddr address && address != zeroAddressHex

/-- Capitalisation step of `toChecksumAddress`: hex digits `0-9` are
unchanged; letters are upper- or lower-cased according to the
keccak-derived bit for their position. -/
def checksumChar (upper : Bool) (c : Char) : Char :=
  if c.isDigit then c else if upper then c.toUpper else c.toLower

/-- Model of `web3.utils.toChecksumAddress`: lower-case the hex part
and re-capitalise each character by the keccak-derived bit supplied by
the environment. -/
def toChecksumAddress (caseMap : String → Nat → Bool) (address : String) : String :=
  let hexPart : String := String.mk ((address.drop 2).toList.map Char.toLower)
  "0x" ++ String.mk (hexPart.toList.enum.map (fun p => checksumChar (caseMap hexPart p.1) p.2))

/-- Embeds `normalizeAddress` (src/smart-contract-analyzer.js lines
459-461): checksum of `'0x' + hexData.slice(-40)`. -/
def normalizeAddress (env : Env) (hexData : String) : String :=
  toChecksumAddress env.caseMap ("0x" ++ jsSliceNeg40 hexData)

/-- Embeds `isSuspiciousSignature` (src/smart-contract-analyzer.js
lines 427-433): membership of the selector in the three-element
critical list. -/
def isSuspiciousSignature (signature : String) : Bool :=
  [UPGRADE_TO, UPGRADE_TO_AND_CALL, CHANGE_ADMIN].contains signature

/-- Body of `decodeTransactionInput` (src/smart-contract-analyzer.js
lines 513-537) for a present input string. The leading guard is the
falsy-or-short test `!inputData || inputData.length < 10` restricted
to strings (the empty string is the only falsy string); a thrown
`decodeParameters` error is the `none` branch of `env.decodeParams`,
and the catch block returns the matched function name with empty
params. -/
def decodeInputString (env : Env) (s : String) : DecodedInput :=
  if s = "" ∨ s.length < 10 then ⟨"unknown", []⟩
  else
    let functionSignature := s.take 10
    match FUNCTION_SIGNATURES.find? (fun q => q.2 == functionSignature) with
    | none => ⟨"unknown", []⟩
    | some entry =>
      match getAbiByFunctionName entry.1 with
      | none => ⟨entry.1, []⟩
      | some [] => ⟨entry.1, []⟩
      | some (p :: ps) =>
        match env.decodeParams (p :: ps) (s.drop 10) with
        | some decoded => ⟨entry.1, decoded⟩
        | none => ⟨entry.1, []⟩

/-- Embeds `decodeTransactionInput` (src/smart-contract-analyzer.js
lines 513-537): a missing `inputData` falls into the same falsy guard
and decodes to unknown; a present string is handled by
`decodeInputString`. -/
def decodeTransactionInput (env : Env) : Option String → DecodedInput
  | none => ⟨"unknown", []⟩
  | some s => decodeInputString env s

/-- Embeds `analyzeSingleTransaction` (src/smart-contract-analyzer.js
lines 311-335). The guard `tx.input && tx.input.length >= 10` is the
present-nonempty-and-long-enough test; only inside that branch are the
`decodedInput` key and the suspicion flag/reason assigned. -/
def analyzeSingleTransaction (env : Env) (tx : Tx) : Analysis :=
  let analysis : Analysis :=
    { hash := tx.hash
      fromAddr := if isValidAddress env tx.fromAddr then tx.fromAddr else "Adresse invalide"
      toAddr := if isValidAddress env tx.toAddr then tx.toAddr else "Adresse invalide"
      value := tx.value
      input := tx.input
      timestamp := env.toIso (tx.timeStamp * 1000)
      suspicious := false
      reason := []
      decodedInput := none }
  match tx.input with
  | none => analysis
  | some s =>
    if s ≠ "" ∧ 10 ≤ s.length then
      let signature := s.take 10
      let decoded := decodeTransactionInput env (some s)
      let analysis1 := { analysis with decodedInput := some decoded }
      if isSuspiciousSignature signature then
        { analysis1 with suspicious := true, reason := analysis1.reason ++ ["suspicious_signature"] }
      else
        analysis1
    else
      analysis

/-- Embeds `isContract` (src/smart-contract-analyzer.js lines 391-398):
invalid addresses are reported as non-contracts; otherwise the account
code must differ from `'0x'`. -/
def isContract (env : Env) (address : String) : Bool :=
  if isValidAddress env address = false then false
  else env.getCode address != "0x"

/-- Embeds `getContractTransactions` (src/smart-contract-analyzer.js
lines 280-294): empty on an invalid address or a non-success explorer
status, otherwise the result filtered to entries whose `from` and `to`
both pass the Address Validator. -/
def getContractTransactions (env : Env) (address : String) : List Tx :=
  if isValidAddress env address = false then []
  else
    let data := env.txlist address
    if data.status ≠ "1" then []
    else data.result.filter (fun tx => isValidAddress env tx.fromAddr && isValidAddress env tx.toAddr)

/-- Contract state snapshot `{implementation, admin}` built by
`getContractState`. -/
structure ContractState where
  implementation : String
  admin : String
deriving DecidableEq

/-- Embeds `getContractState` (src/smart-contract-analyzer.js lines
366-382): two point storage reads followed by address normalization.
A failing read propagates; the function itself never validates the
decoded addresses. -/
def getContractState (env : Env) (address : String) (blockNumber : Nat) :
    Except AnalyzerError ContractState :=
  match env.storageAt address IMPLEMENTATION_SLOT blockNumber with
  | Except.error e => Except.error e
  | Except.ok implementation =>
    match env.storageAt address ADMIN_SLOT blockNumber with
    | Except.error e => Except.error e
    | Except.ok admin =>
      Except.ok ⟨normalizeAddress env implementation, normalizeAddress env admin⟩

/-- Embeds `getImplementationAt` (src/smart-contract-analyzer.js lines
441-457): a storage read whose thrown error is caught and turned into
`null`; a truthy value different from the literal zero-address string
is normalized and returned, anything else yields `null`. -/
def getImplementationAt (env : Env) (contractAddress : String) (blockNumber : Nat) :
    Option String :=
  match env.storageAt contractAddress IMPLEMENTATION_SLOT blockNumber with
  | Except.error _ => none
  | Except.ok storageValue =>
    if storageValue ≠ "" ∧ storageValue ≠ zeroAddressHex then
      some (normalizeAddress env storageValue)
    else
      none

/-- One recorded implementation sighting `{blockNumber, implementation}`. -/
structure Sighting where
  blockNumber : Nat
  implementation : String
deriving DecidableEq

/-- The `while (currentBlock < latestBlock)` loop body of
`analyzeImplementationHistory` (src/smart-contract-analyzer.js lines
341-358), with the per-iteration sighting push and the fixed
`currentBlock += 1000` stride. -/
def historyLoop (implAt : Nat → Option String) (latestBlock currentBlock : Nat) :
    List Sighting :=
  if currentBlock < latestBlock then
    (match implAt currentBlock with
     | some impl => [⟨currentBlock, impl⟩]
     | none => []) ++ historyLoop implAt latestBlock (currentBlock + 1000)
  else []
termination_by latestBlock - currentBlock
decreasing_by omega

/-- The block heights at which the history loop issues a storage read:
the same `while` loop as `historyLoop`, recording the height of every
iteration. -/
def sampleHeights (latestBlock currentBlock : Nat) : List Nat :=
  if currentBlock < latestBlock then
    currentBlock :: sampleHeights latestBlock (currentBlock + 1000)
  else []
termination_by latestBlock - currentBlock
decreasing_by omega

/-- Embeds `analyzeImplementationHistory` (src/smart-contract-analyzer.js
lines 341-358): scan from block 0 with stride 1000 below the latest
block number, which is read once into `env.blockNumber`. -/
def analyzeImplementationHistory (env : Env) (victimContract : String) : List Sighting :=
  historyLoop (fun b => getImplementationAt env victimContract b) env.blockNumber 0

/-- State of the interaction-graph crawl in `traceContractCalls`.
`seen` is the full contents of the JavaScript `contractsToAnalyze` set
in insertion order; `queue` is its not-yet-visited suffix; `processed`
is `this.processedContracts` in insertion order; `suspiciousActions`
accumulates into the report. -/
structure CrawlState where
  seen : List String
  queue : List String
  processed : List String
  suspiciousActions : List Analysis

/-- JavaScript `contractsToAnalyze.add(x)` during iteration: adding an
element already in the set is a no-op; a new element is appended and
will be visited by the ongoing `for...of` loop. -/
def addToAnalyze (s : CrawlState) (x : String) : CrawlState :=
  if x ∈ s.seen then s
  else { s with seen := s.seen ++ [x], queue := s.queue ++ [x] }

/-- The body of the inner `for (const tx of transactions)` loop of
`traceContractCalls`: grow the frontier with contract-typed recipients
and record suspicious analyses. -/
def processTx (env : Env) (s : CrawlState) (tx : Tx) : CrawlState :=
  let s1 :=
    if tx.toAddr ≠ "" ∧ isValidAddress env tx.toAddr = true ∧ isContract env tx.toAddr = true then
      addToAnalyze s tx.toAddr
    else s
  let analysis := analyzeSingleTransaction env tx
  if analysis.suspicious then
    { s1 with suspiciousActions := s1.suspiciousActions ++ [analysis] }
  else s1

/-- The outer `for (const contract of contractsToAnalyze)` loop of
`traceContractCalls` (src/smart-contract-analyzer.js lines 469-493),
driven by fuel so that the possibly unbounded crawl stays a total
function: invalid addresses are skipped, already-processed addresses
are skipped, and otherwise the address is marked processed and its
transaction history is folded through `processTx`. -/
def traceLoop (env : Env) : Nat → CrawlState → CrawlState
  | 0, s => s
  | Nat.succ fuel, s =>
    match s.queue with
    | [] => s
    | contract :: rest =>
      let s0 : CrawlState := { s with queue := rest }
      if isValidAddress env contract = false then traceLoop env fuel s0
      else if contract ∈ s0.processed then traceLoop env fuel s0
      else
        let s1 : CrawlState := { s0 with processed := s0.processed ++ [contract] }
        let txs := getContractTransactions env contract
        traceLoop env fuel (txs.foldl (processTx env) s1)

/-- Embeds `traceContractCalls` (src/smart-contract-analyzer.js lines
469-493) started on a fresh analyzer: the set is seeded with the start
address and `this.processedContracts` is empty. -/
def traceContractCalls (env : Env) (fuel : Nat) (startAddress : String) : CrawlState :=
  traceLoop env fuel
    { seen := [startAddress], queue := [startAddress], processed := [], suspiciousActions := [] }

/-- The report object created at the start of `analyzeFromHack`,
restricted to the fields the verified claims inspect.
`relatedContracts` is the JavaScript `Set` in insertion order. -/
structure Report where
  hackTransaction : String
  victimContract : String
  suspectAddress : String
  startTime : String
  suspiciousActions : List Analysis
  relatedContracts : List String
  implementationHistory : List Sighting
deriving DecidableEq

/-- Report construction at the top of `analyzeFromHack` (the object
literal assigned to `this.report`). -/
def initReport (hackTxHash victimContract suspectAddress startTime : String) : Report :=
  { hackTransaction := hackTxHash
    victimContract := victimContract
    suspectAddress := suspectAddress
    startTime := startTime
    suspiciousActions := []
    relatedContracts := []
    implementationHistory := [] }

/-- Embeds the checkpointing `analyzeFromHack` of the unnamed analyzer
variant (src/unnamed/part_003 lines 33-70). The four phases are the
in-place mutations of `this.report`, modelled as functions from the
report to `Except` of the updated report; after each successful phase
the report is checkpointed under the step label, and the catch block
checkpoints the current report under the `_error.json` label before
re-throwing. `saveToJson` itself swallows its own failures, so saving
never throws. The result is the outcome together with the ordered list
of (label, snapshot) checkpoint writes. -/
def analyzeFromHack (hackTxHash : String)
    (phase1 phase2 phase3 phase4 : Report → Except AnalyzerError Report)
    (init : Report) :
    Except AnalyzerError Report × List (String × Report) :=
  match phase1 init with
  | Except.error e => (Except.error e, [(hackTxHash ++ "_error.json", init)])
  | Except.ok r1 =>
    match phase2 r1 with
    | Except.error e =>
      (Except.error e,
       [(hackTxHash ++ "_step1.json", r1), (hackTxHash ++ "_error.json", r1)])
    | Except.ok r2 =>
      match phase3 r2 with
      | Except.error e =>
        (Except.error e,
         [(hackTxHash ++ "_step1.json", r1), (hackTxHash ++ "_step2.json", r2),
          (hackTxHash ++ "_error.json", r2)])
      | Except.ok r3 =>
        match phase4 r3 with
        | Except.error e =>
          (Except.error e,
           [(hackTxHash ++ "_step1.json", r1), (hackTxHash ++ "_step2.json", r2),
            (hackTxHash ++ "_step3.json", r3), (hackTxHash ++ "_error.json", r3)])
        | Except.ok r4 =>
          (Except.ok r4,
           [(hackTxHash ++ "_step1.json", r1), (hackTxHash ++ "_step2.json", r2),
            (hackTxHash ++ "_step3.json", r3), (hackTxHash ++ "_final.json", r4)])

/-- A JSON document, the wire form produced by `JSON.stringify` with
the replacer of `saveToJson` (src/save-utils.js lines 9-24): sets have
already been turned into arrays and bigints into strings. -/
inductive JValue where
  | jnull
  | jstr (s : String)
  | jbool (b : Bool)
  | jarr (items : List JValue)
  | jobj (fields : List (String × JValue))

/-- Field lookup in a serialized JSON object. -/
def JValue.getField (j : JValue) (name : String) : Option JValue :=
  match j with
  | JValue.jobj fields => (fields.find? (fun p => p.1 == name)).map (fun p => p.2)
  | _ => none

/-- Serialization of one analysis entry (plain record of strings,
booleans and lists; nothing set-valued). -/
def analysisToJson (a : Analysis) : JValue :=
  JValue.jobj
    [("hash", JValue.jstr a.hash),
     ("from", JValue.jstr a.fromAddr),
     ("to", JValue.jstr a.toAddr),
     ("value", JValue.jstr a.value),
     ("input", match a.input with | some s => JValue.jstr s | none => JValue.jnull),
     ("timestamp", JValue.jstr a.timestamp),
     ("suspicious", JValue.jbool a.suspicious),
     ("reason", JValue.jarr (a.reason.map JValue.jstr)),
     ("decodedInput",
      match a.decodedInput with
      | some d =>
        JValue.jobj
          [("method", JValue.jstr d.method),
           ("params", JValue.jobj ((d.params : List (String × String)).map
              (fun p => (p.1, JValue.jstr p.2))))]
      | none => JValue.jnull)]

/-- Serialization of one implementation sighting; the block number is
rendered as a decimal string per the bigint replacer. -/
def sightingToJson (s : Sighting) : JValue :=
  JValue.jobj
    [("blockNumber", JValue.jstr (toString s.blockNumber)),
     ("implementation", JValue.jstr s.implementation)]

/-- Serialization of the report as written by `saveToJson`
(src/save-utils.js lines 9-24) and by `generateReports`
(src/unnamed/part_002 lines 115-133): every `Set` value, in particular
`relatedContracts`, is rendered as the array of its elements in
insertion order (`Array.from`). -/
def reportToJson (r : Report) : JValue :=
  JValue.jobj
    [("hackTransaction", JValue.jstr r.hackTransaction),
     ("victimContract", JValue.jstr r.victimContract),
     ("suspectAddress", JValue.jstr r.suspectAddress),
     ("startTime", JValue.jstr r.startTime),
     ("suspiciousActions", JValue.jarr (r.suspiciousActions.map analysisToJson)),
     ("relatedContracts", JValue.jarr (r.relatedContracts.map JValue.jstr)),
     ("implementationHistory", JValue.jarr (r.implementationHistory.map sightingToJson))]

/-- Modelled from the spec: the repository writes reports but contains
no deserializer, so reading `relatedContracts` back from the JSON
artifact is modelled from the round-trip property of the design
document, section 8: parse the `relatedContracts` field of the JSON
object as a list of address strings. -/
def decodeRelatedContracts (j : JValue) : Option (List String) :=
  match j.getField "relatedContracts" with
  | some (JValue.jarr items) =>
    items.mapM (fun it => match it with | JValue.jstr s => some s | _ => none)
  | _ => none

/-- A string of length at least 10 is not empty. -/
lemma ne_empty_of_ten_le_length {s : String} (hlen : 10 ≤ s.length) : s ≠ "" := by
  intro h
  rw [h] at hlen
  simp at hlen

/-- On a long-enough input the analysis takes the decoding branch:
the suspicion flag is exactly the selector test. -/
lemma analyze_suspicious_long (env : Env) (tx : Tx) (s : String)
    (hin : tx.input = some s) (hlen : 10 ≤ s.length) :
    (analyzeSingleTransaction env tx).suspicious = isSuspiciousSignature (s.take 10) := by
  have hne : s ≠ "" := ne_empty_of_ten_le_length hlen
  unfold analyzeSingleTransaction
  rw [hin]
  by_cases h : isSuspiciousSignature (s.take 10) = true
  · simp [hne, hlen, h]
  · simp [hne, hlen, h]

/-- On a long-enough input the reason list is the singleton
`["suspicious_signature"]` when the selector is critical and empty
otherwise. -/
lemma analyze_reason_long (env : Env) (tx : Tx) (s : String)
    (hin : tx.input = some s) (hlen : 10 ≤ s.length) :
    (analyzeSingleTransaction env tx).reason =
      (if isSuspiciousSignature (s.take 10) = true then ["suspicious_signature"] else []) := by
  have hne : s ≠ "" := ne_empty_of_ten_le_length hlen
  unfold analyzeSingleTransaction
  rw [hin]
  by_cases h : isSuspiciousSignature (s.take 10) = true
  · simp [hne, hlen, h]
  · simp [hne, hlen, h]

/-- On a long-enough input the decoded-input key is assigned from
`decodeTransactionInput`. -/
lemma analyze_decodedInput_long (env : Env) (tx : Tx) (s : String)
    (hin : tx.input = some s) (hlen : 10 ≤ s.length) :
    (analyzeSingleTransaction env tx).decodedInput =
      some (decodeTransactionInput env (some s)) := by
  have hne : s ≠ "" := ne_empty_of_ten_le_length hlen
  unfold analyzeSingleTransaction
  rw [hin]
  by_cases h : isSuspiciousSignature (s.take 10) = true
  · simp [hne, hlen, h]
  · simp [hne, hlen, h]

/-- Membership unfolding for the three-selector suspicion list. -/
lemma isSuspiciousSignature_iff (s : String) :
    isSuspiciousSignature s = true ↔
      (s = UPGRADE_TO ∨ s = UPGRADE_TO_AND_CALL ∨ s = CHANGE_ADMIN) := by
  simp [isSuspiciousSignature, List.contains, List.elem_eq_mem]

/-- C1: for every transaction whose input is long enough to contain a
4-byte selector, the classifier marks it suspicious with reason
`["suspicious_signature"]` exactly when the leading selector is one of
UPGRADE_TO, UPGRADE_TO_AND_CALL or CHANGE_ADMIN; for the INITIALIZE
selector and for any selector outside the critical list the analysis
is not suspicious and carries no reason. -/
theorem classify_suspicious_iff_selector (env : Env) (tx : Tx) (s : String)
    (hin : tx.input = some s) (hlen : 10 ≤ s.length) :
    (((analyzeSingleTransaction env tx).suspicious = true ∧
      (analyzeSingleTransaction env tx).reason = ["suspicious_signature"]) ↔
      (s.take 10 = UPGRADE_TO ∨ s.take 10 = UPGRADE_TO_AND_CALL ∨
       s.take 10 = CHANGE_ADMIN)) ∧
    ((s.take 10 = initializeSelector ∨ isSuspiciousSignature (s.take 10) = false) →
      (analyzeSingleTransaction env tx).suspicious = false ∧
      (analyzeSingleTransaction env tx).reason = []) := by
  have hs := analyze_suspicious_long env tx s hin hlen
  have hr := analyze_reason_long env tx s hin hlen
  constructor
  · rw [← isSuspiciousSignature_iff]
    constructor
    · intro hand
      rw [hs] at hand
      exact hand.1
    · intro h
      rw [hs, hr, h]
      simp
  · intro hsel
    have h : isSuspiciousSignature (s.take 10) = false := by
      rcases hsel with h1 | h2
      · rw [h1]
        decide
      · exact h2
    rw [hs, hr, h]
    simp

/-- A fully inert environment used to instantiate theorems with
hypotheses on concrete inputs: every address string is well formed, no
capitalisation bit is set, parameter decoding always fails, and all
chain reads return fixed trivial data. -/
def envTrivial : Env :=
  { isAddr := fun _ => true
    caseMap := fun _ _ => false
    decodeParams := fun _ _ => none
    toIso := fun _ => "1970-01-01T00:00:00.000Z"
    storageAt := fun _ _ _ => Except.ok zeroWord
    txlist := fun _ => ⟨"0", []⟩
    getCode := fun _ => "0x"
    blockNumber := 0 }

/-- Sample transaction whose input is exactly the UPGRADE_TO selector. -/
def txUpgrade : Tx :=
  { hash := "0xhack"
    fromAddr := "0x6d24389CEC21cd5437D5c581a40dAe6B336c9E5D"
    toAddr := "0x8B5Ea07B683953c82901E0f3Ad1dCC66cdD79568"
    value := "0"
    input := some "0x3659cfe6"
    timeStamp := 1736510700 }

/-- Witness for C1 at a concrete suspicious transaction. -/
theorem classify_suspicious_iff_selector_witness :
    (((analyzeSingleTransaction envTrivial txUpgrade).suspicious = true ∧
      (analyzeSingleTransaction envTrivial txUpgrade).reason = ["suspicious_signature"]) ↔
      ("0x3659cfe6".take 10 = UPGRADE_TO ∨ "0x3659cfe6".take 10 = UPGRADE_TO_AND_CALL ∨
       "0x3659cfe6".take 10 = CHANGE_ADMIN)) :=
  (classify_suspicious_iff_selector envTrivial txUpgrade "0x3659cfe6" rfl (by decide)).1

/-- C10: when the input field is missing or holds a hex string of
fewer than 10 characters (the `0x` prefix plus a full 4-byte
selector), the analysis is not suspicious, has no reasons, and has no
`decodedInput` key at all. -/
theorem short_input_no_decodedInput (env : Env) (tx : Tx)
    (hshort : tx.input = none ∨ ∃ s, tx.input = some s ∧ s.length < 10) :
    (analyzeSingleTransaction env tx).suspicious = false ∧
    (analyzeSingleTransaction env tx).reason = [] ∧
    (analyzeSingleTransaction env tx).decodedInput = none := by
  rcases hshort with hnone | ⟨s, hin, hlt⟩
  · unfold analyzeSingleTransaction
    rw [hnone]
    simp
  · have hcond : ¬(s ≠ "" ∧ 10 ≤ s.length) := by
      intro hand
      omega
    unfold analyzeSingleTransaction
    rw [hin]
    simp [hcond]

/-- Sample transaction with a short (selector-less) input. -/
def txShort : Tx :=
  { hash := "0xshort"
    fromAddr := "0x6d24389CEC21cd5437D5c581a40dAe6B336c9E5D"
    toAddr := "0x8B5Ea07B683953c82901E0f3Ad1dCC66cdD79568"
    value := "0"
    input := some "0x"
    timeStamp := 0 }

/-- Witness for C10 at a concrete short-input transaction. -/
theorem short_input_no_decodedInput_witness :
    (analyzeSingleTransaction envTrivial txShort).suspicious = false ∧
    (analyzeSingleTransaction envTrivial txShort).reason = [] ∧
    (analyzeSingleTransaction envTrivial txShort).decodedInput = none :=
  short_input_no_decodedInput envTrivial txShort (Or.inr ⟨"0x", rfl, by decide⟩)

/-- Refutation input for C2: `envTrivial.decodeParams` always fails,
and the UPGRADE_TO selector matches a known critical function, yet the
classifier keeps the matched method name instead of downgrading to
`"unknown"`. -/
theorem decode_failure_not_unknown_counterexample :
    (analyzeSingleTransaction envTrivial txUpgrade).decodedInput =
      some (DecodedInput.mk "UPGRADE_TO" []) ∧
    (analyzeSingleTransaction envTrivial txUpgrade).decodedInput ≠
      some (DecodedInput.mk "unknown" []) := by
  constructor
  · decide
  · decide

/-- C2 as amended: on a decode failure for a selector found in the
critical-function table, the classifier returns the matched function
name with empty params (not the method name `"unknown"`), and the
suspicion flag and reason stay exactly what the selector test alone
determines. -/
theorem decode_failure_keeps_method_name (env : Env) (tx : Tx) (s : String)
    (entry : String × String)
    (hin : tx.input = some s) (hlen : 10 ≤ s.length)
    (hfind : FUNCTION_SIGNATURES.find? (fun q => q.2 == s.take 10) = some entry)
    (hdec : ∀ p ps, getAbiByFunctionName entry.1 = some (p :: ps) →
        env.decodeParams (p :: ps) (s.drop 10) = none) :
    (analyzeSingleTransaction env tx).decodedInput =
      some (DecodedInput.mk entry.1 []) ∧
    (analyzeSingleTransaction env tx).suspicious = isSuspiciousSignature (s.take 10) ∧
    (analyzeSingleTransaction env tx).reason =
      (if isSuspiciousSignature (s.take 10) = true then ["suspicious_signature"] else []) := by
  refine ⟨?_, analyze_suspicious_long env tx s hin hlen,
    analyze_reason_long env tx s hin hlen⟩
  rw [analyze_decodedInput_long env tx s hin hlen]
  have hne : s ≠ "" := ne_empty_of_ten_le_length hlen
  have hcond : ¬(s = "" ∨ s.length < 10) := by
    push_neg
    exact ⟨hne, by omega⟩
  show some (decodeInputString env s) = _
  unfold decodeInputString
  rw [if_neg hcond]
  simp only [hfind]
  rcases habi : getAbiByFunctionName entry.1 with _ | (_ | ⟨p, ps⟩)
  · simp [habi]
  · simp [habi]
  · simp [habi, hdec p ps habi]

/-- Witness for the amended C2 at a concrete failing decode. -/
theorem decode_failure_keeps_method_name_witness :
    (analyzeSingleTransaction envTrivial txUpgrade).decodedInput =
      some (DecodedInput.mk "UPGRADE_TO" []) ∧
    (analyzeSingleTransaction envTrivial txUpgrade).suspicious =
      isSuspiciousSignature ("0x3659cfe6".take 10) ∧
    (analyzeSingleTransaction envTrivial txUpgrade).reason =
      (if isSuspiciousSignature ("0x3659cfe6".take 10) = true
       then ["suspicious_signature"] else []) :=
  decode_failure_keeps_method_name envTrivial txUpgrade "0x3659cfe6"
    ("UPGRADE_TO", "0x3659cfe6") rfl (by decide) (by decide) (fun _ _ _ => rfl)

/-- Growing the crawl set never touches the processed list. -/
lemma addToAnalyze_processed (s : CrawlState) (x : String) :
    (addToAnalyze s x).processed = s.processed := by
  unfold addToAnalyze
  split <;> rfl

/-- The inner transaction loop never touches the processed list. -/
lemma processTx_processed (env : Env) (s : CrawlState) (tx : Tx) :
    (processTx env s tx).processed = s.processed := by
  unfold processTx
  split <;> (dsimp only; split <;> simp [addToAnalyze_processed])

/-- Folding the inner transaction loop never touches the processed
list. -/
lemma foldl_processTx_processed (env : Env) (txs : List Tx) (s : CrawlState) :
    (txs.foldl (processTx env) s).processed = s.processed := by
  induction txs generalizing s with
  | nil => rfl
  | cons t ts ih => simp [List.foldl, ih, processTx_processed]

/-- Crawl invariant: the processed list stays duplicate-free and keeps
holding only validator-approved addresses. -/
lemma traceLoop_processed_invariant (env : Env) :
    ∀ fuel (s : CrawlState), s.processed.Nodup →
      (∀ a ∈ s.processed, isValidAddress env a = true) →
      ((traceLoop env fuel s).processed.Nodup ∧
       ∀ a ∈ (traceLoop env fuel s).processed, isValidAddress env a = true) := by
  intro fuel
  induction fuel with
  | zero => intro s h1 h2; exact ⟨h1, h2⟩
  | succ fuel ih =>
    intro s h1 h2
    rw [traceLoop]
    cases hq : s.queue with
    | nil => exact ⟨h1, h2⟩
    | cons contract rest =>
      dsimp only
      by_cases hv : isValidAddress env contract = false
      · rw [if_pos hv]
        exact ih _ h1 h2
      · rw [if_neg hv]
        by_cases hp : contract ∈ s.processed
        · rw [if_pos hp]
          exact ih _ h1 h2
        · rw [if_neg hp]
          have hvt : isValidAddress env contract = true := by
            cases h : isValidAddress env contract with
            | false => exact absurd h hv
            | true => rfl
          have h1' : (s.processed ++ [contract]).Nodup := by
            simp [List.nodup_append, h1, hp]
          have h2' : ∀ a ∈ s.processed ++ [contract], isValidAddress env a = true := by
            intro a ha
            rcases List.mem_append.mp ha with ha | ha
            · exact h2 a ha
            · rw [List.mem_singleton.mp ha]
              exact hvt
          have hfold := foldl_processTx_processed env
            (getContractTransactions env contract)
            { s with queue := rest, processed := s.processed ++ [contract] }
          have := ih ((getContractTransactions env contract).foldl (processTx env)
            { s with queue := rest, processed := s.processed ++ [contract] })
            (by rw [hfold]; exact h1') (by rw [hfold]; exact h2')
          exact this

/-- C3: whatever sequence of insertions feeds the frontier (the
initial queue may repeat an address arbitrarily often), every distinct
address enters the processed set at most once, and an address rejected
by the Address Validator never enters it; in particular this holds for
`traceContractCalls` started from any seed. -/
theorem crawl_processed_nodup_and_valid (env : Env) (fuel : Nat)
    (seen queue : List String) :
    (traceLoop env fuel ⟨seen, queue, [], []⟩).processed.Nodup ∧
    ∀ a, isValidAddress env a = false →
      a ∉ (traceLoop env fuel ⟨seen, queue, [], []⟩).processed := by
  have h := traceLoop_processed_invariant env fuel ⟨seen, queue, [], []⟩
    (by simp) (by simp)
  refine ⟨h.1, fun a hfa hmem => ?_⟩
  have := h.2 a hmem
  rw [hfa] at this
  exact Bool.false_ne_true this

/-- Witness for C3: a queue inserting the same address twice, in an
environment rejecting the zero address. -/
theorem crawl_processed_nodup_and_valid_witness :
    (traceLoop envTrivial 3 ⟨["0xaaa"], ["0xaaa", "0xaaa"], [], []⟩).processed.Nodup ∧
    zeroAddressHex ∉
      (traceLoop envTrivial 3 ⟨["0xaaa"], ["0xaaa", "0xaaa"], [], []⟩).processed :=
  have h := crawl_processed_nodup_and_valid envTrivial 3 ["0xaaa"] ["0xaaa", "0xaaa"]
  ⟨h.1, h.2 zeroAddressHex (by decide)⟩

/-- A crawl whose queue is exhausted is finished, whatever fuel
remains. -/
lemma traceLoop_queue_nil (env : Env) (fuel : Nat) (s : CrawlState)
    (h : s.queue = []) : traceLoop env fuel s = s := by
  cases fuel with
  | zero => rfl
  | succ fuel => rw [traceLoop, h]

/-- C9: a crawl from a validator-approved seed whose fetched
transaction history is empty processes exactly the seed and reports no
suspicious actions, for every sufficient fuel bound (the loop stops as
soon as the frontier empties). -/
theorem crawl_empty_history_terminates (env : Env) (seed : String) (fuel : Nat)
    (hvalid : isValidAddress env seed = true)
    (hempty : getContractTransactions env seed = [])
    (hfuel : 1 ≤ fuel) :
    (traceContractCalls env fuel seed).processed = [seed] ∧
    (traceContractCalls env fuel seed).suspiciousActions = [] := by
  obtain ⟨n, rfl⟩ : ∃ n, fuel = n + 1 := ⟨fuel - 1, by omega⟩
  unfold traceContractCalls
  rw [traceLoop]
  simp only [hvalid, hempty, List.foldl_nil]
  simp [traceLoop_queue_nil]

/-- Witness for C9 at a concrete environment whose explorer returns a
non-success status. -/
theorem crawl_empty_history_terminates_witness :
    (traceContractCalls envTrivial 2 "0xaaa").processed = ["0xaaa"] ∧
    (traceContractCalls envTrivial 2 "0xaaa").suspiciousActions = [] :=
  crawl_empty_history_terminates envTrivial "0xaaa" 2 (by decide) (by decide) (by decide)

/-- The history loop reads exactly the heights listed by
`sampleHeights` and keeps a sighting for each non-null read, stated
with an explicit bound to drive the induction. -/
lemma historyLoop_eq_filterMap_aux (implAt : Nat → Option String) :
    ∀ n latest current, latest - current ≤ n →
      historyLoop implAt latest current =
        (sampleHeights latest current).filterMap
          (fun b => (implAt b).map (fun i => Sighting.mk b i)) := by
  intro n
  induction n with
  | zero =>
    intro latest current hb
    have hc : ¬ current < latest := by omega
    rw [historyLoop, sampleHeights, if_neg hc, if_neg hc]
    rfl
  | succ n ih =>
    intro latest current hb
    by_cases hc : current < latest
    · rw [historyLoop, sampleHeights, if_pos hc, if_pos hc, List.filterMap_cons]
      rw [ih latest (current + 1000) (by omega)]
      cases himpl : implAt current <;> simp [himpl]
    · rw [historyLoop, sampleHeights, if_neg hc, if_neg hc]
      rfl

/-- Membership in the sampled-height list, with an explicit bound to
drive the induction. -/
lemma mem_sampleHeights_aux :
    ∀ n latest current h, latest - current ≤ n →
      (h ∈ sampleHeights latest current ↔
        (current ≤ h ∧ h < latest ∧ (h - current) % 1000 = 0)) := by
  intro n
  induction n with
  | zero =>
    intro latest current h hb
    have hc : ¬ current < latest := by omega
    rw [sampleHeights, if_neg hc]
    simp
    omega
  | succ n ih =>
    intro latest current h hb
    by_cases hc : current < latest
    · rw [sampleHeights, if_pos hc]
      rw [List.mem_cons, ih latest (current + 1000) h (by omega)]
      omega
    · rw [sampleHeights, if_neg hc]
      simp
      omega

/-- C5: the implementation-history sampler reads exactly the heights
produced by the strided loop from block 0 below the latest block
number taken at sampler start; those heights are exactly the multiples
of 1000 below the bound, and over the range [0, 2500) they are 0, 1000
and 2000. -/
theorem history_sampler_stride_spec :
    (∀ env victim, analyzeImplementationHistory env victim =
      (sampleHeights env.blockNumber 0).filterMap
        (fun b => (getImplementationAt env victim b).map (fun i => Sighting.mk b i))) ∧
    (∀ latest h, h ∈ sampleHeights latest 0 ↔ (h % 1000 = 0 ∧ h < latest)) ∧
    sampleHeights 2500 0 = [0, 1000, 2000] := by
  refine ⟨?_, ?_, ?_⟩
  · intro env victim
    exact historyLoop_eq_filterMap_aux _ env.blockNumber env.blockNumber 0 (by omega)
  · intro latest h
    rw [mem_sampleHeights_aux latest latest 0 h (by omega)]
    omega
  · simp [sampleHeights]

/-- Environment whose implementation slot reads as the all-zero
32-byte word at every height, with one sampled height. -/
def envZeroSlot : Env :=
  { envTrivial with blockNumber := 1 }

/-- A 32-byte storage word whose low-order 20 bytes decode to the
address `0x0000000000000000000000000000000000000001`. -/
def wordOne : String := "0x" ++ String.mk (List.replicate 63 '0') ++ "1"

/-- The address encoded by `wordOne`. -/
def addrOne : String := "0x" ++ String.mk (List.replicate 39 '0') ++ "1"

/-- Environment whose storage read throws at block 0 and returns
`wordOne` at every other height, over the range [0, 2500). -/
def envSkip : Env :=
  { envTrivial with
    storageAt := fun _ _ b =>
      if b = 0 then Except.error (AnalyzerError.storageRead "read failed")
      else Except.ok wordOne
    blockNumber := 2500 }

/-- Evaluation for C4: the first conjunct shows the sampler appending
an `ImplementationSighting` carrying the zero address although the
implementation slot at that height holds 32 zero bytes — the source
compares the raw 66-character word against the 42-character
zero-address literal, which can never match, so the non-zero test of
the claim is not what the code implements; the second conjunct shows
the error-skip half of the claim working: a storage read throwing at
block 0 only loses that sample, and the scan continues through blocks
1000 and 2000. -/
theorem history_zero_slot_sighting_bug :
    analyzeImplementationHistory envZeroSlot "0xvictim" =
      [Sighting.mk 0 zeroAddressHex] ∧
    analyzeImplementationHistory envSkip "0xvictim" =
      [Sighting.mk 1000 addrOne, Sighting.mk 2000 addrOne] := by
  constructor
  · have h0 : getImplementationAt envZeroSlot "0xvictim" 0 = some zeroAddressHex := by
      decide
    unfold analyzeImplementationHistory
    rw [show envZeroSlot.blockNumber = 1 from rfl]
    simp [historyLoop, h0]
  · have h0 : getImplementationAt envSkip "0xvictim" 0 = none := by decide
    have h1 : getImplementationAt envSkip "0xvictim" 1000 = some addrOne := by decide
    have h2 : getImplementationAt envSkip "0xvictim" 2000 = some addrOne := by decide
    unfold analyzeImplementationHistory
    rw [show envSkip.blockNumber = 2500 from rfl]
    simp [historyLoop, h0, h1, h2]

/-- Checksumming never alters a decimal digit. -/
lemma checksumChar_digit (b : Bool) (c : Char) (h : c.isDigit = true) :
    checksumChar b c = c := by
  simp [checksumChar, h]

/-- Checksumming an all-digit character list is the identity,
whatever the capitalisation bits say. -/
lemma map_checksumChar_enumFrom (caseMap : String → Nat → Bool) (s : String) :
    ∀ (l : List Char) (n : Nat), (∀ c ∈ l, c.isDigit = true) →
      (List.enumFrom n l).map (fun p => checksumChar (caseMap s p.1) p.2) = l := by
  intro l
  induction l with
  | nil => intro n _; rfl
  | cons c cs ih =>
    intro n h
    have hc : c.isDigit = true := h c (by simp)
    have hcs : ∀ d ∈ cs, d.isDigit = true := fun d hd => h d (by simp [hd])
    simp [List.enumFrom, checksumChar_digit _ c hc, ih (n + 1) hcs]

/-- Checksumming the zero address is the identity for every
capitalisation map. -/
lemma toChecksumAddress_zero (caseMap : String → Nat → Bool) :
    toChecksumAddress caseMap zeroAddressHex = zeroAddressHex := by
  unfold toChecksumAddress
  rw [show ((zeroAddressHex.drop 2).toList.map Char.toLower) = List.replicate 40 '0' from by decide]
  dsimp only
  rw [show (String.mk (List.replicate 40 '0')).toList = List.replicate 40 '0' from rfl]
  rw [List.enum]
  rw [map_checksumChar_enumFrom caseMap (String.mk (List.replicate 40 '0'))
    (List.replicate 40 '0') 0
    (fun c hc => by rw [List.eq_of_mem_replicate hc]; rfl)]
  decide

/-- Normalizing the all-zero 32-byte word yields the zero address in
every environment. -/
lemma normalizeAddress_zeroWord (env : Env) :
    normalizeAddress env zeroWord = zeroAddressHex := by
  unfold normalizeAddress
  rw [show ("0x" ++ jsSliceNeg40 zeroWord) = zeroAddressHex from by decide]
  exact toChecksumAddress_zero env.caseMap

/-- C6: for every address and block height, a storage slot reading as
32 zero bytes is normalized by the State Inspector to the all-zero
address and the snapshot is returned as an ordinary value — the
inspector itself raises no validation error on it. -/
theorem zero_word_normalizes_to_zero_address (env : Env) (address : String)
    (blockNumber : Nat)
    (himpl : env.storageAt address IMPLEMENTATION_SLOT blockNumber = Except.ok zeroWord)
    (hadmin : env.storageAt address ADMIN_SLOT blockNumber = Except.ok zeroWord) :
    getContractState env address blockNumber =
      Except.ok (ContractState.mk zeroAddressHex zeroAddressHex) := by
  unfold getContractState
  rw [himpl, hadmin]
  simp [normalizeAddress_zeroWord]

/-- Witness for C6 on the trivial environment whose slots all read as
the zero word. -/
theorem zero_word_normalizes_to_zero_address_witness :
    getContractState envTrivial "0xaaa" 5 =
      Except.ok (ContractState.mk zeroAddressHex zeroAddressHex) :=
  zero_word_normalizes_to_zero_address envTrivial "0xaaa" 5 rfl rfl

/-- C7: if any of the four pipeline phases throws, the run writes the
current partial report as its final checkpoint under the error label
and the error itself is the returned outcome; an `ok` outcome is only
possible when all four phases succeeded, so a partial report is never
returned as success. -/
theorem analyzeFromHack_error_checkpoint_and_reraise (hackTxHash : String)
    (p1 p2 p3 p4 : Report → Except AnalyzerError Report) (init : Report) :
    (∀ e, (analyzeFromHack hackTxHash p1 p2 p3 p4 init).1 = Except.error e →
      ∃ r, (analyzeFromHack hackTxHash p1 p2 p3 p4 init).2.getLast? =
        some (hackTxHash ++ "_error.json", r)) ∧
    (∀ r, (analyzeFromHack hackTxHash p1 p2 p3 p4 init).1 = Except.ok r →
      ∃ r1 r2 r3, p1 init = Except.ok r1 ∧ p2 r1 = Except.ok r2 ∧
        p3 r2 = Except.ok r3 ∧ p4 r3 = Except.ok r) := by
  cases h1 : p1 init with
  | error e =>
    refine ⟨fun e' _ => ⟨init, by simp [analyzeFromHack, h1]⟩, fun r hr => ?_⟩
    simp [analyzeFromHack, h1] at hr
  | ok r1 =>
    cases h2 : p2 r1 with
    | error e =>
      refine ⟨fun e' _ => ⟨r1, by simp [analyzeFromHack, h1, h2]⟩, fun r hr => ?_⟩
      simp [analyzeFromHack, h1, h2] at hr
    | ok r2 =>
      cases h3 : p3 r2 with
      | error e =>
        refine ⟨fun e' _ => ⟨r2, by simp [analyzeFromHack, h1, h2, h3]⟩,
          fun r hr => ?_⟩
        simp [analyzeFromHack, h1, h2, h3] at hr
      | ok r3 =>
        cases h4 : p4 r3 with
        | error e =>
          refine ⟨fun e' _ => ⟨r3, by simp [analyzeFromHack, h1, h2, h3, h4]⟩,
            fun r hr => ?_⟩
          simp [analyzeFromHack, h1, h2, h3, h4] at hr
        | ok r4 =>
          refine ⟨fun e' he' => ?_, fun r hr => ?_⟩
          · simp [analyzeFromHack, h1, h2, h3, h4] at he'
          · have hr4 : r4 = r := by
              simpa [analyzeFromHack, h1, h2, h3, h4] using hr
            exact ⟨r1, r2, r3, rfl, h2, h3, by rw [← hr4]; exact h4⟩

/-- A phase that always fails with a storage-read error. -/
def phaseFail : Report → Except AnalyzerError Report :=
  fun _ => Except.error (AnalyzerError.storageRead "rpc down")

/-- A phase that succeeds without changing the report. -/
def phaseOk : Report → Except AnalyzerError Report :=
  fun r => Except.ok r

/-- Concrete initial report for the C7 witness. -/
def reportSample : Report :=
  initReport "0xhack" "0xvictim" "0xsuspect" "1970-01-01T00:00:00.000Z"

/-- Witness for C7: the third phase fails, the final checkpoint is the
error-labelled one. -/
theorem analyzeFromHack_error_checkpoint_and_reraise_witness :
    ∃ r, (analyzeFromHack "0xhack" phaseOk phaseOk phaseFail phaseOk
      reportSample).2.getLast? = some ("0xhack" ++ "_error.json", r) :=
  (analyzeFromHack_error_checkpoint_and_reraise "0xhack" phaseOk phaseOk phaseFail
    phaseOk reportSample).1 (AnalyzerError.storageRead "rpc down") rfl

/-- Decoding the string-array encoding recovers the original list. -/
lemma mapM_jstr (l : List String) :
    List.mapM (fun it => match it with | JValue.jstr s => some s | _ => none)
      (l.map JValue.jstr) = some l := by
  induction l with
  | nil => rfl
  | cons a as ih => rw [List.map_cons, List.mapM_cons, ih]; rfl

/-- C8: the serialized report renders `relatedContracts` as the
ordered list of the set's elements, and deserializing the artifact
recovers a list with exactly the same elements as the pre-serialization
set. -/
theorem report_relatedContracts_roundtrip (r : Report) :
    (reportToJson r).getField "relatedContracts" =
      some (JValue.jarr (r.relatedContracts.map JValue.jstr)) ∧
    decodeRelatedContracts (reportToJson r) = some r.relatedContracts ∧
    ∀ a, a ∈ (decodeRelatedContracts (reportToJson r)).getD [] ↔
      a ∈ r.relatedContracts := by
  have hfield : (reportToJson r).getField "relatedContracts" =
      some (JValue.jarr (r.relatedContracts.map JValue.jstr)) := rfl
  have hdec : decodeRelatedContracts (reportToJson r) = some r.relatedContracts := by
    unfold decodeRelatedContracts
    rw [hfield]
    exact mapM_jstr r.relatedContracts
  refine ⟨hfield, hdec, fun a => ?_⟩
  rw [hdec]
  simp
